import Mathlib

/-!
# Verification of `block-mesh-rs` (naive face scanner and greedy quad merger)

Shallow embedding of the meshing library: voxel visibility, the voxel-context
capability object, the naive face scanner (`src/simple.rs`) and the greedy
merge strategy (`src/greedy/merge_strategy.rs`).  Machine integers (`u32`) are
modelled as `Nat` with explicit reduction modulo `2 ^ 32` wherever the source
uses wrapping arithmetic.  Slices are modelled as total index functions
(`Nat → T`); the in-boundedness of every unchecked access is itself one of the
verified properties.
-/

/-- The modulus of `u32` arithmetic. -/
def U32 : Nat := 2 ^ 32

/-- `u32` cast of an `i32` coordinate (two's-complement reinterpretation),
as performed by `UVec3::as_ivec3` / `IVec3::as_uvec3` round trips on signed
normals. -/
def u32_cast (i : Int) : Nat := (i % (U32 : Int)).toNat

/-- `[u32; 3]` coordinates. -/
structure UVec3 where
  x : Nat
  y : Nat
  z : Nat
deriving DecidableEq, Repr

/-- `VoxelVisibility` from `src/lib.rs`: how a voxel influences mesh
generation. -/
inductive VoxelVisibility where
  | Empty
  | Translucent
  | Opaque
deriving DecidableEq, Repr

/-- The `Voxel` trait from `src/lib.rs`, as a record of its method. -/
structure Voxel (T : Type) where
  get_visibility : T → VoxelVisibility

/-- The `MergeVoxel` trait (from `src/greedy.rs`, visible through its use in
`src/lib.rs`): a voxel exposing the two equality-comparable merge keys. -/
structure MergeVoxel (T K1 K2 : Type) extends Voxel T where
  merge_value : T → K1
  merge_value_facing_neighbour : T → K2

/-- The `VoxelContext` trait from `src/lib.rs`. -/
structure VoxelContext (T : Type) where
  get_visibility : T → VoxelVisibility

/-- The `MergeVoxelContext` trait from `src/lib.rs`. -/
structure MergeVoxelContext (T K1 K2 : Type) extends VoxelContext T where
  merge_value : T → K1
  merge_value_facing_neighbour : T → K2

/-- `DefaultVoxelContext`'s `impl VoxelContext<T> for T: Voxel`
(`src/lib.rs` lines 129-133): delegate to the voxel's own method. -/
def DefaultVoxelContext.voxelContext {T : Type} (inst : Voxel T) : VoxelContext T where
  get_visibility voxel := inst.get_visibility voxel

/-- `DefaultVoxelContext`'s `impl MergeVoxelContext<T> for T: MergeVoxel`
(`src/lib.rs` lines 135-146): delegate every method to the voxel's own. -/
def DefaultVoxelContext.mergeVoxelContext {T K1 K2 : Type} (inst : MergeVoxel T K1 K2) :
    MergeVoxelContext T K1 K2 where
  get_visibility voxel := inst.get_visibility voxel
  merge_value voxel := inst.merge_value voxel
  merge_value_facing_neighbour voxel := inst.merge_value_facing_neighbour voxel

/-- `FaceStrides` from `src/greedy/merge_strategy.rs`. -/
structure FaceStrides where
  n_stride : Nat
  u_stride : Nat
  v_stride : Nat
  visibility_offset : Nat
deriving DecidableEq, Repr

/-- Modelled from the spec: the function `face_needs_mesh` lives in
`src/greedy.rs`, which is not among the provided source files; only its import
and call sites appear in `src/greedy/merge_strategy.rs`.  Per §4.2 the
Face-Visibility Predicate is: an Empty voxel never meshes; against an Empty
neighbour the face meshes; against a Translucent neighbour it meshes only if
the voxel is Opaque; against an Opaque neighbour never.  Per §4.4 step 1 the
merger additionally skips any cell already visited.  The first Rust argument
(the voxel itself) is always the slice element at `voxel_stride`, so it is
recomputed here from the stride; the neighbour is fetched with
`wrapping_add`. -/
def face_needs_mesh {T : Type} (voxel_stride visibility_offset : Nat)
    (voxels : Nat → T) (visited : Nat → Bool) (ctx : VoxelContext T) : Bool :=
  let visibility := ctx.get_visibility (voxels voxel_stride)
  if visibility = VoxelVisibility.Empty then false
  else if visited voxel_stride then false
  else
    match ctx.get_visibility (voxels ((voxel_stride + visibility_offset) % U32)) with
    | VoxelVisibility.Empty => true
    | VoxelVisibility.Translucent => decide (visibility = VoxelVisibility.Opaque)
    | VoxelVisibility.Opaque => false

/-- The loop body of `VoxelMerger::get_row_width`
(`src/greedy/merge_strategy.rs` lines 129-153), by recursion on the remaining
width budget `max_width - quad_width`: at each step the voxel at `row_stride`
and its across-face neighbour are fetched, the row stops at the first cell
failing `face_needs_mesh` or whose merge value / neighbour merge value differs
from the quad's, and otherwise the width grows by one and the stride advances
by `delta_stride` (wrapping `u32` addition). -/
def VoxelMerger.get_row_width_from {T K1 K2 : Type} [DecidableEq K1] [DecidableEq K2]
    (voxels : Nat → T) (visited : Nat → Bool)
    (quad_merge_voxel_value : K1) (quad_merge_voxel_value_facing_neighbour : K2)
    (visibility_offset delta_stride : Nat) (ctx : MergeVoxelContext T K1 K2) :
    Nat → Nat → Nat
  | _row_stride, 0 => 0
  | row_stride, fuel + 1 =>
    let voxel := voxels row_stride
    let neighbour := voxels ((row_stride + visibility_offset) % U32)
    if ¬ (face_needs_mesh row_stride visibility_offset voxels visited ctx.toVoxelContext = true) then
      0
    else if ¬ (ctx.merge_value voxel = quad_merge_voxel_value) ∨
        ¬ (ctx.merge_value_facing_neighbour neighbour = quad_merge_voxel_value_facing_neighbour) then
      0
    else
      VoxelMerger.get_row_width_from voxels visited quad_merge_voxel_value
        quad_merge_voxel_value_facing_neighbour visibility_offset delta_stride ctx
        ((row_stride + delta_stride) % U32) fuel + 1

/-- `VoxelMerger::get_row_width` (`src/greedy/merge_strategy.rs` lines
115-154): the `while quad_width < max_width` loop makes at most `max_width`
iterations, so `max_width` is the fuel. -/
def VoxelMerger.get_row_width {T K1 K2 : Type} [DecidableEq K1] [DecidableEq K2]
    (voxels : Nat → T) (visited : Nat → Bool)
    (quad_merge_voxel_value : K1) (quad_merge_voxel_value_facing_neighbour : K2)
    (visibility_offset start_stride delta_stride max_width : Nat)
    (ctx : MergeVoxelContext T K1 K2) : Nat :=
  VoxelMerger.get_row_width_from voxels visited quad_merge_voxel_value
    quad_merge_voxel_value_facing_neighbour visibility_offset delta_stride ctx
    start_stride max_width

/-- The height-growth loop of `VoxelMerger::find_quad`
(`src/greedy/merge_strategy.rs` lines 88-108), by recursion on the remaining
height budget `max_height - quad_height`: a row is accepted while its matching
run width, capped at `quad_width`, is not below `quad_width`; the row start
advances by `v_stride` (wrapping `u32` addition). -/
def VoxelMerger.grow_height {T K1 K2 : Type} [DecidableEq K1] [DecidableEq K2]
    (voxels : Nat → T) (visited : Nat → Bool)
    (quad_value : K1) (quad_neighbour_value : K2)
    (visibility_offset u_stride v_stride quad_width : Nat)
    (ctx : MergeVoxelContext T K1 K2) : Nat → Nat → Nat
  | _row_start_stride, 0 => 0
  | row_start_stride, fuel + 1 =>
    if VoxelMerger.get_row_width voxels visited quad_value quad_neighbour_value
        visibility_offset row_start_stride u_stride quad_width ctx < quad_width then
      0
    else
      VoxelMerger.grow_height voxels visited quad_value quad_neighbour_value
        visibility_offset u_stride v_stride quad_width ctx
        ((row_start_stride + v_stride) % U32) fuel + 1

/-- `UnorientedUnitQuad` from `src/buffer.rs` (buffer container, external per
the spec's scope): a unit quad recorded by its minimum grid coordinate. -/
structure UnorientedUnitQuad where
  minimum : UVec3
deriving DecidableEq, Repr

/-- Modelled from the spec: `UnitQuadBuffer` lives in `src/buffer.rs`, which is
not among the provided source files.  §6: the output is, "for each of the 6
face directions, an ordered sequence of quads"; `groups[face_index].push(...)`
in `src/simple.rs` appends one quad at the end of that face's sequence.  The
six groups are modelled as a function from the face index. -/
structure UnitQuadBuffer where
  groups : Nat → List UnorientedUnitQuad

/-- `Vec::push` on one group of the buffer: append at that face index. -/
def UnitQuadBuffer.push (output : UnitQuadBuffer) (face_index : Nat)
    (quad : UnorientedUnitQuad) : UnitQuadBuffer where
  groups := fun i => if i = face_index then output.groups i ++ [quad] else output.groups i

/-- An axis of the 3D grid. -/
inductive Axis3 where
  | X
  | Y
  | Z
deriving DecidableEq, Repr

/-- Modelled from the spec: `OrientedBlockFace` lives in `src/geometry.rs`,
which is not among the provided source files.  §3: a Face Descriptor is "one of
6 directions" carrying a normal direction; so a face is an axis together with a
sign, and its `signed_normal()` is the corresponding signed unit vector.  (The
U/V axes of the descriptor are consumed only by code outside the provided
sources; the merge strategy receives them pre-linearized as `FaceStrides`.) -/
structure OrientedBlockFace where
  n_sign_positive : Bool
  n_axis : Axis3
deriving DecidableEq, Repr

/-- `OrientedBlockFace::signed_normal()`: the signed unit vector of the face's
normal axis, as signed integer coordinates. -/
def OrientedBlockFace.signed_normal (face : OrientedBlockFace) : Int × Int × Int :=
  let s : Int := if face.n_sign_positive then 1 else -1
  match face.n_axis with
  | Axis3.X => (s, 0, 0)
  | Axis3.Y => (0, s, 0)
  | Axis3.Z => (0, 0, s)

/-- `signed_normal().as_uvec3().to_array()`: cast each signed coordinate to
`u32` (two's complement), giving the `[u32; 3]` fed to `Shape::linearize`. -/
def OrientedBlockFace.normal_u32 (face : OrientedBlockFace) : UVec3 :=
  let n := face.signed_normal
  ⟨u32_cast n.1, u32_cast n.2.1, u32_cast n.2.2⟩

/-- The interior iteration of `src/simple.rs` lines 54-64: the `[min, max]`
extent padded inward by one cell (`extent.padded(-1)`), iterated with `x`
fastest then `y` then `z`, which is linear-index order for a row-major shape.
Per axis the padded extent runs from `min + 1` with `max - min - 1` cells
(empty when the extent is thinner than 3 cells; the external `ilattice`
extent/shape conversions are embedded with the spec §4.3 meaning of "the
extent padded inward by one cell"). -/
def interior3 (min max : UVec3) : List UVec3 :=
  (List.range (max.z - min.z - 1)).flatMap fun dz =>
    (List.range (max.y - min.y - 1)).flatMap fun dy =>
      (List.range (max.x - min.x - 1)).map fun dx =>
        ⟨min.x + 1 + dx, min.y + 1 + dy, min.z + 1 + dz⟩

/-- The per-voxel body of the scan loop of
`visible_block_faces_with_voxel_view` (`src/simple.rs` lines 64-91): skip the
voxel when its visibility is Empty, otherwise for each of the 6 faces fetch
the neighbour at the wrapping-added kernel stride, decide `face_needs_mesh` by
the neighbour's visibility (Empty: mesh; Translucent: mesh iff the voxel is
Opaque; Opaque: never), and on a pass push a unit quad at the voxel's
coordinates onto that face's group.  `Shape::linearize` is the abstract
`lin`. -/
def visible_block_faces_step {T : Type} (voxels : Nat → T) (lin : UVec3 → Nat)
    (kernel_strides : Nat → Nat) (ctx : VoxelContext T)
    (output : UnitQuadBuffer) (p : UVec3) : UnitQuadBuffer :=
  let p_index := lin p
  let p_voxel := voxels p_index
  if ctx.get_visibility p_voxel = VoxelVisibility.Empty then output
  else
    (List.range 6).foldl (fun output face_index =>
      let neighbor_index := (p_index + kernel_strides face_index) % U32
      let neighbor_voxel := voxels neighbor_index
      let face_mesh : Bool :=
        match ctx.get_visibility neighbor_voxel with
        | VoxelVisibility.Empty => true
        | VoxelVisibility.Translucent =>
          decide (ctx.get_visibility p_voxel = VoxelVisibility.Opaque)
        | VoxelVisibility.Opaque => false
      if face_mesh then output.push face_index ⟨p⟩ else output) output

/-- `visible_block_faces_with_voxel_view` (`src/simple.rs` lines 40-92) after
the bounds assertion: precompute the 6 kernel strides by linearizing each
face's `u32`-cast signed normal, then fold the per-voxel step over the
interior in scan order.  The shape's `linearize` is the abstract `lin`
(`ndshape::Shape` is an external trait). -/
def visible_block_faces_with_voxel_view {T : Type} (voxels : Nat → T)
    (lin : UVec3 → Nat) (min max : UVec3) (faces : Nat → OrientedBlockFace)
    (output : UnitQuadBuffer) (ctx : VoxelContext T) : UnitQuadBuffer :=
  let kernel_strides : Nat → Nat := fun face_index => lin (faces face_index).normal_u32
  (interior3 min max).foldl (visible_block_faces_step voxels lin kernel_strides ctx) output

/-- A row-major 3D shape (the `ndshape` crate's standard 3D linearization,
external per the spec's scope): `linearize [x, y, z] = x + sx * (y + sy * z)`
in `u32` arithmetic. -/
structure RowMajorShape where
  x_size : Nat
  y_size : Nat
  z_size : Nat
deriving DecidableEq, Repr

/-- The number of cells of the shape. -/
def RowMajorShape.size (shape : RowMajorShape) : Nat :=
  shape.x_size * shape.y_size * shape.z_size

/-- Row-major `Shape::linearize` with wrapping `u32` arithmetic. -/
def RowMajorShape.linearize (shape : RowMajorShape) (p : UVec3) : Nat :=
  (p.x + shape.x_size * (p.y + shape.y_size * p.z)) % U32

/-- Modelled from the spec: `assert_in_bounds` lives in `src/bounds.rs`, which
is not among the provided source files.  §7: "the extent must lie within the
declared shape bounds (inclusive), otherwise the call fails immediately with
an out-of-bounds error", a malformed extent being likewise rejected; §6: the
extent must lie "within the array", so the declared shape must fit in the
voxel slice it indexes. -/
def assert_in_bounds (len : Nat) (shape : RowMajorShape) (min max : UVec3) : Bool :=
  decide (shape.size ≤ len) &&
    decide (min.x ≤ max.x) && decide (min.y ≤ max.y) && decide (min.z ≤ max.z) &&
    decide (max.x < shape.x_size) && decide (max.y < shape.y_size) &&
    decide (max.z < shape.z_size)

/-- The error message of the failed bounds assertion. -/
def out_of_bounds_message : String := "extent out of bounds of voxel shape"

/-- `visible_block_faces` (`src/simple.rs` lines 13-34): assert the extent in
bounds (a panic, embedded as `Except.error`), then delegate to
`visible_block_faces_with_voxel_view` unchanged. -/
def visible_block_faces {T : Type} (voxels : Nat → T) (len : Nat)
    (shape : RowMajorShape) (min max : UVec3) (faces : Nat → OrientedBlockFace)
    (output : UnitQuadBuffer) (ctx : VoxelContext T) :
    Except String UnitQuadBuffer :=
  if assert_in_bounds len shape min max then
    Except.ok (visible_block_faces_with_voxel_view voxels shape.linearize min max faces output ctx)
  else
    Except.error out_of_bounds_message

/-- `VoxelMerger::find_quad` (`src/greedy/merge_strategy.rs` lines 56-111):
fix the quad merge values from the seed cell and its across-face neighbour,
take the widest row in the U direction, then grow the height in the V
direction while whole rows keep matching at the fixed width.  `quad_height`
starts at `1` and the `while quad_height < max_height` loop makes at most
`max_height - 1` iterations, so that difference is the fuel. -/
def VoxelMerger.find_quad {T K1 K2 : Type} [DecidableEq K1] [DecidableEq K2]
    (min_index max_width max_height : Nat) (face_strides : FaceStrides)
    (voxels : Nat → T) (visited : Nat → Bool)
    (ctx : MergeVoxelContext T K1 K2) : Nat × Nat :=
  let quad_value := ctx.merge_value (voxels min_index)
  let quad_neighbour_value := ctx.merge_value_facing_neighbour
    (voxels ((min_index + face_strides.visibility_offset) % U32))
  let quad_width := VoxelMerger.get_row_width voxels visited quad_value quad_neighbour_value
    face_strides.visibility_offset min_index face_strides.u_stride max_width ctx
  let quad_height := 1 + VoxelMerger.grow_height voxels visited quad_value quad_neighbour_value
    face_strides.visibility_offset face_strides.u_stride face_strides.v_stride quad_width ctx
    ((min_index + face_strides.v_stride) % U32) (max_height - 1)
  (quad_width, quad_height)

/-- A sample merge context for concrete evaluations over `Nat` voxels:
value `0` is Empty, `1` Translucent, anything else Opaque; both merge keys
are the voxel value itself. -/
def sampleCtx : MergeVoxelContext Nat Nat Nat where
  get_visibility v :=
    if v = 0 then VoxelVisibility.Empty
    else if v = 1 then VoxelVisibility.Translucent
    else VoxelVisibility.Opaque
  merge_value v := v
  merge_value_facing_neighbour v := v

/-- A sample voxel slice: ten Opaque voxels (value 5) at linear indices 0..9,
Empty everywhere else. -/
def sampleVoxels : Nat → Nat := fun i => if i < 10 then 5 else 0

/-- A fresh all-false visited mask. -/
def sampleVisited : Nat → Bool := fun _ => false

/-- A sample face table in the order negative X, Y, Z then positive X, Y, Z
(the axis layout of the default right-handed Y-up configuration). -/
def sampleFaces : Nat → OrientedBlockFace := fun i =>
  match i with
  | 0 => ⟨false, Axis3.X⟩
  | 1 => ⟨false, Axis3.Y⟩
  | 2 => ⟨false, Axis3.Z⟩
  | 3 => ⟨true, Axis3.X⟩
  | 4 => ⟨true, Axis3.Y⟩
  | _ => ⟨true, Axis3.Z⟩

/-- A sample 3D voxel slice for a 4×4×4 row-major shape: one Opaque voxel
(value 5) at coordinates (1,1,1) (linear index 21), Empty elsewhere. -/
def sampleVoxels3d : Nat → Nat := fun i => if i = 21 then 5 else 0

/-- A context classifying every voxel as Empty. -/
def emptyCtx : VoxelContext Nat where
  get_visibility _ := VoxelVisibility.Empty

/-- The linear index of the `j`-th cell of a row that starts at `start` and
advances by `delta` per cell, in wrapping `u32` arithmetic. -/
def run_index (start delta j : Nat) : Nat := (start + j * delta) % U32

/-- Eligibility of the `j`-th cell of a row for the quad being grown: it
passes `face_needs_mesh`, its merge value equals the quad's, and its
across-face neighbour's merge value equals the quad's neighbour value. -/
def row_cell_ok {T K1 K2 : Type} [DecidableEq K1] [DecidableEq K2]
    (voxels : Nat → T) (visited : Nat → Bool)
    (quad_value : K1) (quad_neighbour_value : K2)
    (visibility_offset start delta_stride : Nat)
    (ctx : MergeVoxelContext T K1 K2) (j : Nat) : Prop :=
  face_needs_mesh (run_index start delta_stride j) visibility_offset voxels visited
      ctx.toVoxelContext = true ∧
  ctx.merge_value (voxels (run_index start delta_stride j)) = quad_value ∧
  ctx.merge_value_facing_neighbour
      (voxels ((run_index start delta_stride j + visibility_offset) % U32))
    = quad_neighbour_value

/-- The per-face meshing decision of the naive scanner for the voxel at `p`
(the skip of Empty voxels and the `face_needs_mesh` match of `src/simple.rs`
lines 69-85 combined into one Boolean). -/
def scan_decision {T : Type} (voxels : Nat → T) (lin : UVec3 → Nat)
    (kernel_strides : Nat → Nat) (ctx : VoxelContext T) (p : UVec3)
    (face_index : Nat) : Bool :=
  decide (¬ ctx.get_visibility (voxels (lin p)) = VoxelVisibility.Empty) &&
    (match ctx.get_visibility (voxels ((lin p + kernel_strides face_index) % U32)) with
     | VoxelVisibility.Empty => true
     | VoxelVisibility.Translucent =>
       decide (ctx.get_visibility (voxels (lin p)) = VoxelVisibility.Opaque)
     | VoxelVisibility.Opaque => false)

/-- The quads the naive scanner appends to face group `face_index`: one unit
quad per interior voxel passing the per-face decision, in scan order. -/
def scan_quads {T : Type} (voxels : Nat → T) (lin : UVec3 → Nat)
    (kernel_strides : Nat → Nat) (ctx : VoxelContext T) (min max : UVec3)
    (face_index : Nat) : List UnorientedUnitQuad :=
  (interior3 min max).filterMap fun p =>
    if scan_decision voxels lin kernel_strides ctx p face_index = true then
      some ⟨p⟩
    else none

/-! ## Row runs of the greedy merger -/

theorem U32_pos : 0 < U32 := by norm_num [U32]

theorem run_index_zero {start : Nat} (delta : Nat) (h : start < U32) :
    run_index start delta 0 = start := by
  simp [run_index, Nat.mod_eq_of_lt h]

theorem run_index_succ_shift (start delta j : Nat) :
    run_index ((start + delta) % U32) delta j = run_index start delta (j + 1) := by
  unfold run_index
  rw [Nat.mod_add_mod]
  congr 1
  ring

theorem row_cell_ok_zero {T K1 K2 : Type} [DecidableEq K1] [DecidableEq K2]
    {voxels : Nat → T} {visited : Nat → Bool} {qv : K1} {qnv : K2}
    {off start delta : Nat} {ctx : MergeVoxelContext T K1 K2} (hs : start < U32) :
    row_cell_ok voxels visited qv qnv off start delta ctx 0 ↔
      (face_needs_mesh start off voxels visited ctx.toVoxelContext = true ∧
        ctx.merge_value (voxels start) = qv ∧
        ctx.merge_value_facing_neighbour (voxels ((start + off) % U32)) = qnv) := by
  unfold row_cell_ok
  rw [run_index_zero delta hs]

theorem row_cell_ok_shift {T K1 K2 : Type} [DecidableEq K1] [DecidableEq K2]
    {voxels : Nat → T} {visited : Nat → Bool} {qv : K1} {qnv : K2}
    {off start delta : Nat} {ctx : MergeVoxelContext T K1 K2} (j : Nat) :
    row_cell_ok voxels visited qv qnv off ((start + delta) % U32) delta ctx j ↔
      row_cell_ok voxels visited qv qnv off start delta ctx (j + 1) := by
  unfold row_cell_ok
  rw [run_index_succ_shift]

theorem get_row_width_from_succ {T K1 K2 : Type} [DecidableEq K1] [DecidableEq K2]
    (voxels : Nat → T) (visited : Nat → Bool) (qv : K1) (qnv : K2)
    (off delta : Nat) (ctx : MergeVoxelContext T K1 K2) (start n : Nat) :
    VoxelMerger.get_row_width_from voxels visited qv qnv off delta ctx start (n + 1) =
      if face_needs_mesh start off voxels visited ctx.toVoxelContext = true ∧
          ctx.merge_value (voxels start) = qv ∧
          ctx.merge_value_facing_neighbour (voxels ((start + off) % U32)) = qnv then
        VoxelMerger.get_row_width_from voxels visited qv qnv off delta ctx
          ((start + delta) % U32) n + 1
      else 0 := by
  simp only [VoxelMerger.get_row_width_from]
  by_cases h1 : face_needs_mesh start off voxels visited ctx.toVoxelContext = true <;>
    by_cases h2 : ctx.merge_value (voxels start) = qv <;>
      by_cases h3 : ctx.merge_value_facing_neighbour (voxels ((start + off) % U32)) = qnv <;>
        simp [h1, h2, h3]

theorem get_row_width_from_le {T K1 K2 : Type} [DecidableEq K1] [DecidableEq K2]
    (voxels : Nat → T) (visited : Nat → Bool) (qv : K1) (qnv : K2)
    (off delta : Nat) (ctx : MergeVoxelContext T K1 K2) :
    ∀ (fuel start : Nat),
      VoxelMerger.get_row_width_from voxels visited qv qnv off delta ctx start fuel ≤ fuel := by
  intro fuel
  induction fuel with
  | zero => intro start; simp [VoxelMerger.get_row_width_from]
  | succ n ih =>
    intro start
    rw [get_row_width_from_succ]
    by_cases hc : face_needs_mesh start off voxels visited ctx.toVoxelContext = true ∧
        ctx.merge_value (voxels start) = qv ∧
        ctx.merge_value_facing_neighbour (voxels ((start + off) % U32)) = qnv
    · rw [if_pos hc]
      have := ih ((start + delta) % U32)
      omega
    · rw [if_neg hc]
      omega

theorem get_row_width_le {T K1 K2 : Type} [DecidableEq K1] [DecidableEq K2]
    (voxels : Nat → T) (visited : Nat → Bool) (qv : K1) (qnv : K2)
    (off start delta max_width : Nat) (ctx : MergeVoxelContext T K1 K2) :
    VoxelMerger.get_row_width voxels visited qv qnv off start delta max_width ctx ≤ max_width :=
  get_row_width_from_le voxels visited qv qnv off delta ctx max_width start

theorem get_row_width_from_spec {T K1 K2 : Type} [DecidableEq K1] [DecidableEq K2]
    (voxels : Nat → T) (visited : Nat → Bool) (qv : K1) (qnv : K2)
    (off delta : Nat) (ctx : MergeVoxelContext T K1 K2) :
    ∀ (fuel start : Nat), start < U32 →
      (∀ j, j < VoxelMerger.get_row_width_from voxels visited qv qnv off delta ctx start fuel →
        row_cell_ok voxels visited qv qnv off start delta ctx j) ∧
      (VoxelMerger.get_row_width_from voxels visited qv qnv off delta ctx start fuel < fuel →
        ¬ row_cell_ok voxels visited qv qnv off start delta ctx
          (VoxelMerger.get_row_width_from voxels visited qv qnv off delta ctx start fuel)) := by
  intro fuel
  induction fuel with
  | zero =>
    intro start hs
    constructor
    · intro j hj
      simp [VoxelMerger.get_row_width_from] at hj
    · intro h
      simp [VoxelMerger.get_row_width_from] at h
  | succ n ih =>
    intro start hs
    rw [get_row_width_from_succ]
    by_cases hc : face_needs_mesh start off voxels visited ctx.toVoxelContext = true ∧
        ctx.merge_value (voxels start) = qv ∧
        ctx.merge_value_facing_neighbour (voxels ((start + off) % U32)) = qnv
    · rw [if_pos hc]
      have hlt : (start + delta) % U32 < U32 := Nat.mod_lt _ U32_pos
      obtain ⟨ihok, ihstop⟩ := ih ((start + delta) % U32) hlt
      constructor
      · intro j hj
        match j with
        | 0 => exact (row_cell_ok_zero hs).mpr hc
        | j + 1 => exact (row_cell_ok_shift j).mp (ihok j (by omega))
      · intro hlt2 hok
        exact ihstop (by omega)
          ((row_cell_ok_shift
            (VoxelMerger.get_row_width_from voxels visited qv qnv off delta ctx
              ((start + delta) % U32) n)).mpr hok)
    · rw [if_neg hc]
      constructor
      · intro j hj
        omega
      · intro _ hok
        exact hc ((row_cell_ok_zero hs).mp hok)

/-- **C2**: the width returned by `VoxelMerger::get_row_width` is the length of
the maximal consecutive run along U, capped at `max_width`, such that every
cell of the run passes the face-visibility predicate, has its merge value
equal to the seed's `quad_value` and its across-face neighbour's merge value
equal to the seed's `quad_neighbour_value`; the run stops at the first cell
violating any of the three conditions.  In particular no two cells of the run
have differing neighbour merge values, so two adjacent voxels with equal merge
keys but differing neighbour merge keys are never placed in the same quad
row. -/
theorem get_row_width_is_maximal_matching_run {T K1 K2 : Type}
    [DecidableEq K1] [DecidableEq K2]
    (voxels : Nat → T) (visited : Nat → Bool) (qv : K1) (qnv : K2)
    (visibility_offset start_stride delta_stride max_width : Nat)
    (ctx : MergeVoxelContext T K1 K2) (hstart : start_stride < U32) :
    VoxelMerger.get_row_width voxels visited qv qnv visibility_offset start_stride
        delta_stride max_width ctx ≤ max_width ∧
    (∀ j, j < VoxelMerger.get_row_width voxels visited qv qnv visibility_offset start_stride
        delta_stride max_width ctx →
      row_cell_ok voxels visited qv qnv visibility_offset start_stride delta_stride ctx j) ∧
    (VoxelMerger.get_row_width voxels visited qv qnv visibility_offset start_stride
        delta_stride max_width ctx < max_width →
      ¬ row_cell_ok voxels visited qv qnv visibility_offset start_stride delta_stride ctx
        (VoxelMerger.get_row_width voxels visited qv qnv visibility_offset start_stride
          delta_stride max_width ctx)) ∧
    (∀ i j, i < VoxelMerger.get_row_width voxels visited qv qnv visibility_offset start_stride
          delta_stride max_width ctx →
        j < VoxelMerger.get_row_width voxels visited qv qnv visibility_offset start_stride
          delta_stride max_width ctx →
      ctx.merge_value_facing_neighbour
          (voxels ((run_index start_stride delta_stride i + visibility_offset) % U32)) =
        ctx.merge_value_facing_neighbour
          (voxels ((run_index start_stride delta_stride j + visibility_offset) % U32))) := by
  obtain ⟨hok, hstop⟩ := get_row_width_from_spec voxels visited qv qnv visibility_offset
    delta_stride ctx max_width start_stride hstart
  refine ⟨get_row_width_le voxels visited qv qnv visibility_offset start_stride delta_stride
    max_width ctx, hok, hstop, ?_⟩
  intro i j hi hj
  have h1 := (hok i hi).2.2
  have h2 := (hok j hj).2.2
  rw [h1, h2]

/-! ## Height growth of the greedy merger -/

theorem grow_height_succ {T K1 K2 : Type} [DecidableEq K1] [DecidableEq K2]
    (voxels : Nat → T) (visited : Nat → Bool) (qv : K1) (qnv : K2)
    (off u v quad_width : Nat) (ctx : MergeVoxelContext T K1 K2) (start n : Nat) :
    VoxelMerger.grow_height voxels visited qv qnv off u v quad_width ctx start (n + 1) =
      if VoxelMerger.get_row_width voxels visited qv qnv off start u quad_width ctx
          < quad_width then 0
      else VoxelMerger.grow_height voxels visited qv qnv off u v quad_width ctx
        ((start + v) % U32) n + 1 := rfl

theorem grow_height_le {T K1 K2 : Type} [DecidableEq K1] [DecidableEq K2]
    (voxels : Nat → T) (visited : Nat → Bool) (qv : K1) (qnv : K2)
    (off u v quad_width : Nat) (ctx : MergeVoxelContext T K1 K2) :
    ∀ (fuel start : Nat),
      VoxelMerger.grow_height voxels visited qv qnv off u v quad_width ctx start fuel ≤ fuel := by
  intro fuel
  induction fuel with
  | zero => intro start; simp [VoxelMerger.grow_height]
  | succ n ih =>
    intro start
    rw [grow_height_succ]
    by_cases hc : VoxelMerger.get_row_width voxels visited qv qnv off start u quad_width ctx
        < quad_width
    · rw [if_pos hc]; omega
    · rw [if_neg hc]
      have := ih ((start + v) % U32)
      omega

theorem grow_height_spec {T K1 K2 : Type} [DecidableEq K1] [DecidableEq K2]
    (voxels : Nat → T) (visited : Nat → Bool) (qv : K1) (qnv : K2)
    (off u v quad_width : Nat) (ctx : MergeVoxelContext T K1 K2) :
    ∀ (fuel start : Nat), start < U32 →
      (∀ k, k < VoxelMerger.grow_height voxels visited qv qnv off u v quad_width ctx start fuel →
        VoxelMerger.get_row_width voxels visited qv qnv off (run_index start v k) u
          quad_width ctx = quad_width) ∧
      (VoxelMerger.grow_height voxels visited qv qnv off u v quad_width ctx start fuel < fuel →
        VoxelMerger.get_row_width voxels visited qv qnv off
          (run_index start v
            (VoxelMerger.grow_height voxels visited qv qnv off u v quad_width ctx start fuel))
          u quad_width ctx < quad_width) := by
  intro fuel
  induction fuel with
  | zero =>
    intro start hs
    constructor
    · intro k hk
      simp [VoxelMerger.grow_height] at hk
    · intro h
      simp [VoxelMerger.grow_height] at h
  | succ n ih =>
    intro start hs
    have hidx : run_index start v 0 = start := run_index_zero v hs
    rw [grow_height_succ]
    by_cases hc : VoxelMerger.get_row_width voxels visited qv qnv off start u quad_width ctx
        < quad_width
    · rw [if_pos hc]
      constructor
      · intro k hk
        omega
      · intro _
        rw [hidx]
        exact hc
    · rw [if_neg hc]
      obtain ⟨ihok, ihstop⟩ := ih ((start + v) % U32) (Nat.mod_lt _ U32_pos)
      constructor
      · intro k hk
        match k with
        | 0 =>
          rw [hidx]
          have hle := get_row_width_le voxels visited qv qnv off start u quad_width ctx
          omega
        | k + 1 =>
          have := ihok k (by omega)
          rwa [run_index_succ_shift] at this
      · intro hlt
        have := ihstop (by omega)
        rwa [run_index_succ_shift] at this

theorem run_index_shift_one (min_index v k : Nat) (hk : 1 ≤ k) :
    run_index ((min_index + v) % U32) v (k - 1) = (min_index + k * v) % U32 := by
  obtain ⟨k', rfl⟩ : ∃ k', k = k' + 1 := ⟨k - 1, by omega⟩
  unfold run_index
  rw [Nat.mod_add_mod, Nat.add_sub_cancel]
  congr 1
  ring

/-- `find_quad` unfolded: the width is the seed row's run width and the height
is one plus the number of accepted additional rows. -/
theorem find_quad_eq {T K1 K2 : Type} [DecidableEq K1] [DecidableEq K2]
    (min_index max_width max_height : Nat) (fs : FaceStrides)
    (voxels : Nat → T) (visited : Nat → Bool) (ctx : MergeVoxelContext T K1 K2) :
    VoxelMerger.find_quad min_index max_width max_height fs voxels visited ctx =
      (VoxelMerger.get_row_width voxels visited (ctx.merge_value (voxels min_index))
          (ctx.merge_value_facing_neighbour
            (voxels ((min_index + fs.visibility_offset) % U32)))
          fs.visibility_offset min_index fs.u_stride max_width ctx,
        1 + VoxelMerger.grow_height voxels visited (ctx.merge_value (voxels min_index))
          (ctx.merge_value_facing_neighbour
            (voxels ((min_index + fs.visibility_offset) % U32)))
          fs.visibility_offset fs.u_stride fs.v_stride
          (VoxelMerger.get_row_width voxels visited (ctx.merge_value (voxels min_index))
            (ctx.merge_value_facing_neighbour
              (voxels ((min_index + fs.visibility_offset) % U32)))
            fs.visibility_offset min_index fs.u_stride max_width ctx)
          ctx ((min_index + fs.v_stride) % U32) (max_height - 1)) := rfl

/-- **C3**: in `find_quad` the width is fixed from the first row; each
subsequent row along V is accepted exactly while its matching run width,
recomputed with the same conditions and capped at the fixed width, equals that
full width; the first row whose capped matching width is strictly smaller
stops the height growth. -/
theorem find_quad_fixed_width_height_growth {T K1 K2 : Type}
    [DecidableEq K1] [DecidableEq K2]
    (min_index max_width max_height : Nat) (fs : FaceStrides)
    (voxels : Nat → T) (visited : Nat → Bool) (ctx : MergeVoxelContext T K1 K2) :
    let qv := ctx.merge_value (voxels min_index)
    let qnv := ctx.merge_value_facing_neighbour
      (voxels ((min_index + fs.visibility_offset) % U32))
    let r := VoxelMerger.find_quad min_index max_width max_height fs voxels visited ctx
    r.1 = VoxelMerger.get_row_width voxels visited qv qnv fs.visibility_offset min_index
        fs.u_stride max_width ctx ∧
    (∀ k, 1 ≤ k → k < r.2 →
      VoxelMerger.get_row_width voxels visited qv qnv fs.visibility_offset
        ((min_index + k * fs.v_stride) % U32) fs.u_stride r.1 ctx = r.1) ∧
    (r.2 < max_height →
      VoxelMerger.get_row_width voxels visited qv qnv fs.visibility_offset
        ((min_index + r.2 * fs.v_stride) % U32) fs.u_stride r.1 ctx < r.1) := by
  dsimp only
  rw [find_quad_eq]
  dsimp only
  obtain ⟨hok, hstop⟩ := grow_height_spec voxels visited
    (ctx.merge_value (voxels min_index))
    (ctx.merge_value_facing_neighbour (voxels ((min_index + fs.visibility_offset) % U32)))
    fs.visibility_offset fs.u_stride fs.v_stride
    (VoxelMerger.get_row_width voxels visited (ctx.merge_value (voxels min_index))
      (ctx.merge_value_facing_neighbour
        (voxels ((min_index + fs.visibility_offset) % U32)))
      fs.visibility_offset min_index fs.u_stride max_width ctx)
    ctx (max_height - 1) ((min_index + fs.v_stride) % U32) (Nat.mod_lt _ U32_pos)
  refine ⟨rfl, ?_, ?_⟩
  · intro k hk1 hk2
    have := hok (k - 1) (by omega)
    rwa [run_index_shift_one min_index fs.v_stride k hk1] at this
  · intro hlt
    have hidx := run_index_shift_one min_index fs.v_stride
      (1 + VoxelMerger.grow_height voxels visited (ctx.merge_value (voxels min_index))
        (ctx.merge_value_facing_neighbour (voxels ((min_index + fs.visibility_offset) % U32)))
        fs.visibility_offset fs.u_stride fs.v_stride
        (VoxelMerger.get_row_width voxels visited (ctx.merge_value (voxels min_index))
          (ctx.merge_value_facing_neighbour
            (voxels ((min_index + fs.visibility_offset) % U32)))
          fs.visibility_offset min_index fs.u_stride max_width ctx)
        ctx ((min_index + fs.v_stride) % U32) (max_height - 1)) (by omega)
    rw [Nat.add_sub_cancel_left] at hidx
    rw [← hidx]
    exact hstop (by omega)

/-- **C9**: `find_quad` always returns a height of at least 1; when
`max_height = 0` the returned height is exactly 1 (exceeding `max_height`);
when `max_height ≥ 1` the returned height is at most `max_height`. -/
theorem find_quad_height_at_least_one_and_capped {T K1 K2 : Type}
    [DecidableEq K1] [DecidableEq K2]
    (min_index max_width max_height : Nat) (fs : FaceStrides)
    (voxels : Nat → T) (visited : Nat → Bool) (ctx : MergeVoxelContext T K1 K2) :
    1 ≤ (VoxelMerger.find_quad min_index max_width max_height fs voxels visited ctx).2 ∧
    (max_height = 0 →
      (VoxelMerger.find_quad min_index max_width max_height fs voxels visited ctx).2 = 1) ∧
    (1 ≤ max_height →
      (VoxelMerger.find_quad min_index max_width max_height fs voxels visited ctx).2
        ≤ max_height) := by
  rw [find_quad_eq]
  have hle := grow_height_le voxels visited (ctx.merge_value (voxels min_index))
    (ctx.merge_value_facing_neighbour (voxels ((min_index + fs.visibility_offset) % U32)))
    fs.visibility_offset fs.u_stride fs.v_stride
    (VoxelMerger.get_row_width voxels visited (ctx.merge_value (voxels min_index))
      (ctx.merge_value_facing_neighbour
        (voxels ((min_index + fs.visibility_offset) % U32)))
      fs.visibility_offset min_index fs.u_stride max_width ctx)
    ctx (max_height - 1) ((min_index + fs.v_stride) % U32)
  refine ⟨by omega, ?_, by omega⟩
  intro h0
  subst h0
  simp [VoxelMerger.grow_height]

/-- **C4** (amended): the width returned by `find_quad` is at least 1 if and
only if `max_width` is at least 1 and the seed cell itself passes
`face_needs_mesh` (it is unvisited and face-visible); the seed's two merge
comparisons hold by construction, but the seed cell is checked like every
other cell of the row, so with `max_width = 0` or an ineligible seed the
returned width is 0. -/
theorem find_quad_width_positive_iff_seed_eligible {T K1 K2 : Type}
    [DecidableEq K1] [DecidableEq K2]
    (min_index max_width max_height : Nat) (fs : FaceStrides)
    (voxels : Nat → T) (visited : Nat → Bool) (ctx : MergeVoxelContext T K1 K2) :
    1 ≤ (VoxelMerger.find_quad min_index max_width max_height fs voxels visited ctx).1 ↔
      1 ≤ max_width ∧
        face_needs_mesh min_index fs.visibility_offset voxels visited
          ctx.toVoxelContext = true := by
  rw [find_quad_eq]
  show 1 ≤ VoxelMerger.get_row_width voxels visited _ _ _ _ _ max_width ctx ↔ _
  unfold VoxelMerger.get_row_width
  match max_width with
  | 0 => simp [VoxelMerger.get_row_width_from]
  | n + 1 =>
    rw [get_row_width_from_succ]
    by_cases hc : face_needs_mesh min_index fs.visibility_offset voxels visited
        ctx.toVoxelContext = true
    · simp [hc]
    · simp [hc]

/-- **C4** is false as stated: calling `find_quad` with `max_width = 0` (seed
cell at index 0, an unvisited Opaque voxel over an Empty neighbour at offset
100, so the seed is even face-visible) returns width 0 — the seed cell does
not unconditionally count toward the quad. -/
theorem find_quad_width_zero_at_zero_max_width :
    ¬ 1 ≤ (VoxelMerger.find_quad 0 0 3 ⟨100, 1, 10, 100⟩ sampleVoxels sampleVisited
      sampleCtx).1 := by
  decide

/-! ## The naive face scanner -/

theorem push_groups (output : UnitQuadBuffer) (i : Nat) (q : UnorientedUnitQuad) (f : Nat) :
    (output.push i q).groups f =
      if f = i then output.groups f ++ [q] else output.groups f := rfl

theorem foldl_push_groups (need : Nat → Bool) (q : UnorientedUnitQuad) :
    ∀ (idxs : List Nat) (output : UnitQuadBuffer) (f : Nat),
      ((idxs.foldl (fun o i => if need i then o.push i q else o) output).groups f)
        = output.groups f ++
            (idxs.filterMap fun i => if i = f ∧ need i = true then some q else none) := by
  intro idxs
  induction idxs with
  | nil => intro output f; simp
  | cons i idxs ih =>
    intro output f
    rw [List.foldl_cons, ih, List.filterMap_cons]
    by_cases hn : need i = true
    · by_cases hf : i = f
      · subst hf
        simp [hn, push_groups]
      · simp [hn, hf, push_groups, Ne.symm hf]
    · simp [hn]

theorem filterMap_if_eq_nil (need : Nat → Bool) (q : UnorientedUnitQuad) :
    ∀ (idxs : List Nat) (f : Nat), (∀ i ∈ idxs, i ≠ f) →
      (idxs.filterMap fun i => if i = f ∧ need i = true then some q else none) = [] := by
  intro idxs
  induction idxs with
  | nil => intro f _; rfl
  | cons i idxs ih =>
    intro f h
    rw [List.filterMap_cons]
    have hne : i ≠ f := h i (List.mem_cons_self i idxs)
    simp only [hne, false_and, if_false]
    exact ih f fun j hj => h j (List.mem_cons_of_mem i hj)

theorem filterMap_if_single (need : Nat → Bool) (q : UnorientedUnitQuad) :
    ∀ (idxs : List Nat), idxs.Nodup → ∀ f ∈ idxs,
      (idxs.filterMap fun i => if i = f ∧ need i = true then some q else none)
        = if need f = true then [q] else [] := by
  intro idxs
  induction idxs with
  | nil => intro _ f hf; cases hf
  | cons i idxs ih =>
    intro hnd f hf
    rw [List.filterMap_cons]
    rcases List.mem_cons.mp hf with hif | hmem
    · subst hif
      have hrest : (idxs.filterMap fun j => if j = f ∧ need j = true then some q else none)
          = [] :=
        filterMap_if_eq_nil need q idxs f fun j hj =>
          fun hji => (List.nodup_cons.mp hnd).1 (hji ▸ hj)
      by_cases hn : need f = true
      · simp [hn, hrest]
      · simp [hn, hrest]
    · have hne : i ≠ f := fun hif => (List.nodup_cons.mp hnd).1 (hif ▸ hmem)
      simp only [hne, false_and, if_false]
      exact ih (List.nodup_cons.mp hnd).2 f hmem

theorem scan_decision_iff {T : Type} (voxels : Nat → T) (lin : UVec3 → Nat)
    (kernel_strides : Nat → Nat) (ctx : VoxelContext T) (p : UVec3) (f : Nat) :
    scan_decision voxels lin kernel_strides ctx p f = true ↔
      (¬ ctx.get_visibility (voxels (lin p)) = VoxelVisibility.Empty ∧
        (match ctx.get_visibility (voxels ((lin p + kernel_strides f) % U32)) with
         | VoxelVisibility.Empty => True
         | VoxelVisibility.Translucent =>
           ctx.get_visibility (voxels (lin p)) = VoxelVisibility.Opaque
         | VoxelVisibility.Opaque => False)) := by
  unfold scan_decision
  cases h : ctx.get_visibility (voxels ((lin p + kernel_strides f) % U32)) <;> simp [h]

theorem visible_block_faces_step_groups {T : Type} (voxels : Nat → T)
    (lin : UVec3 → Nat) (kernel_strides : Nat → Nat) (ctx : VoxelContext T)
    (output : UnitQuadBuffer) (p : UVec3) (f : Nat) (hf : f < 6) :
    (visible_block_faces_step voxels lin kernel_strides ctx output p).groups f
      = output.groups f ++
          (if scan_decision voxels lin kernel_strides ctx p f = true then
            [(⟨p⟩ : UnorientedUnitQuad)] else []) := by
  unfold visible_block_faces_step
  by_cases hvis : ctx.get_visibility (voxels (lin p)) = VoxelVisibility.Empty
  · rw [if_pos hvis]
    have hd : scan_decision voxels lin kernel_strides ctx p f = false := by
      unfold scan_decision
      simp [hvis]
    simp [hd]
  · rw [if_neg hvis]
    dsimp only
    rw [foldl_push_groups
      (fun face_index =>
        match ctx.get_visibility (voxels ((lin p + kernel_strides face_index) % U32)) with
        | VoxelVisibility.Empty => true
        | VoxelVisibility.Translucent =>
          decide (ctx.get_visibility (voxels (lin p)) = VoxelVisibility.Opaque)
        | VoxelVisibility.Opaque => false)
      ⟨p⟩ (List.range 6) output f]
    rw [filterMap_if_single _ _ (List.range 6) (List.nodup_range 6) f (List.mem_range.mpr hf)]
    have hdec : scan_decision voxels lin kernel_strides ctx p f =
        (match ctx.get_visibility (voxels ((lin p + kernel_strides f) % U32)) with
         | VoxelVisibility.Empty => true
         | VoxelVisibility.Translucent =>
           decide (ctx.get_visibility (voxels (lin p)) = VoxelVisibility.Opaque)
         | VoxelVisibility.Opaque => false) := by
      unfold scan_decision
      simp [hvis]
    rw [hdec]

theorem visible_block_faces_groups {T : Type} (voxels : Nat → T)
    (lin : UVec3 → Nat) (min max : UVec3) (faces : Nat → OrientedBlockFace)
    (output : UnitQuadBuffer) (ctx : VoxelContext T) (f : Nat) (hf : f < 6) :
    (visible_block_faces_with_voxel_view voxels lin min max faces output ctx).groups f
      = output.groups f ++
          scan_quads voxels lin (fun i => lin (faces i).normal_u32) ctx min max f := by
  unfold visible_block_faces_with_voxel_view scan_quads
  dsimp only
  generalize interior3 min max = ps
  induction ps generalizing output with
  | nil => simp
  | cons p ps ih =>
    rw [List.foldl_cons, List.filterMap_cons, ih]
    rw [visible_block_faces_step_groups voxels lin _ ctx output p f hf]
    by_cases hd : scan_decision voxels lin (fun i => lin (faces i).normal_u32) ctx p f = true
    · simp [hd, List.append_assoc]
    · simp [hd]

/-- **C1**: the naive scanner meshes the face of an interior voxel `p` toward
the neighbour across a face stride exactly according to the shared visibility
predicate: never when `p` is Empty; when the neighbour is Empty; when the
neighbour is Translucent, exactly when `p` is Opaque; never when the neighbour
is Opaque.  Meshing is membership of `p`'s unit quad in that face's output
group, starting from an empty buffer. -/
theorem naive_scanner_meshes_by_visibility_predicate {T : Type} (voxels : Nat → T)
    (lin : UVec3 → Nat) (min max : UVec3) (faces : Nat → OrientedBlockFace)
    (ctx : VoxelContext T) (p : UVec3) (f : Nat) (hf : f < 6) :
    ((⟨p⟩ : UnorientedUnitQuad) ∈
        (visible_block_faces_with_voxel_view voxels lin min max faces
          ⟨fun _ => []⟩ ctx).groups f) ↔
      (p ∈ interior3 min max ∧
        ¬ ctx.get_visibility (voxels (lin p)) = VoxelVisibility.Empty ∧
        (match ctx.get_visibility
            (voxels ((lin p + lin (faces f).normal_u32) % U32)) with
         | VoxelVisibility.Empty => True
         | VoxelVisibility.Translucent =>
           ctx.get_visibility (voxels (lin p)) = VoxelVisibility.Opaque
         | VoxelVisibility.Opaque => False)) := by
  rw [visible_block_faces_groups voxels lin min max faces ⟨fun _ => []⟩ ctx f hf]
  show (⟨p⟩ : UnorientedUnitQuad) ∈ [] ++ _ ↔ _
  rw [List.nil_append]
  unfold scan_quads
  rw [List.mem_filterMap]
  constructor
  · rintro ⟨p', hp', hsome⟩
    by_cases hd : scan_decision voxels lin (fun i => lin (faces i).normal_u32) ctx p' f = true
    · rw [if_pos hd] at hsome
      have hpp : p' = p := by
        injection hsome with h
        injection h
      subst hpp
      exact ⟨hp', (scan_decision_iff voxels lin _ ctx p' f).mp hd⟩
    · rw [if_neg hd] at hsome
      cases hsome
  · rintro ⟨hp, hcond⟩
    refine ⟨p, hp, ?_⟩
    rw [if_pos ((scan_decision_iff voxels lin _ ctx p f).mpr hcond)]

theorem foldl_fixed {α β : Type} (g : α → β → α) (h : ∀ a b, g a b = a) :
    ∀ (l : List β) (init : α), l.foldl g init = init := by
  intro l
  induction l with
  | nil => intro init; rfl
  | cons b l ih =>
    intro init
    rw [List.foldl_cons, h]
    exact ih init

/-- **C5**: when the context classifies every voxel as Empty, the naive
scanner appends nothing — the output buffer comes back exactly as passed in,
and through the bounds-checked entry point the call succeeds with the
untouched buffer for every valid extent. -/
theorem all_empty_grid_produces_no_quads {T : Type} (voxels : Nat → T)
    (lin : UVec3 → Nat) (min max : UVec3) (faces : Nat → OrientedBlockFace)
    (output : UnitQuadBuffer) (ctx : VoxelContext T)
    (hempty : ∀ i, ctx.get_visibility (voxels i) = VoxelVisibility.Empty) :
    visible_block_faces_with_voxel_view voxels lin min max faces output ctx = output ∧
    (∀ (len : Nat) (shape : RowMajorShape), assert_in_bounds len shape min max = true →
      visible_block_faces voxels len shape min max faces output ctx
        = Except.ok output) := by
  have hcore : ∀ (lin' : UVec3 → Nat),
      visible_block_faces_with_voxel_view voxels lin' min max faces output ctx = output := by
    intro lin'
    unfold visible_block_faces_with_voxel_view
    dsimp only
    apply foldl_fixed
    intro o p
    unfold visible_block_faces_step
    rw [if_pos (hempty (lin' p))]
  refine ⟨hcore lin, ?_⟩
  intro len shape hok
  unfold visible_block_faces
  rw [if_pos hok, hcore shape.linearize]

/-- **C6**: the extent validation is the single eager check before any
indexing: a failing assertion makes the call return the out-of-bounds error
immediately with no quads emitted, and a passing assertion makes it return
the completed scan and nothing else. -/
theorem bounds_validation_eager_and_total {T : Type} (voxels : Nat → T)
    (len : Nat) (shape : RowMajorShape) (min max : UVec3)
    (faces : Nat → OrientedBlockFace) (output : UnitQuadBuffer)
    (ctx : VoxelContext T) :
    (assert_in_bounds len shape min max = false →
      visible_block_faces voxels len shape min max faces output ctx
        = Except.error out_of_bounds_message) ∧
    (assert_in_bounds len shape min max = true →
      visible_block_faces voxels len shape min max faces output ctx
        = Except.ok (visible_block_faces_with_voxel_view voxels shape.linearize
            min max faces output ctx)) := by
  constructor <;> intro h <;> simp [visible_block_faces, h]

/-- **C8**: both algorithms are deterministic — equal inputs (including an
equal initial output buffer, resp. an equal fresh visited mask) give equal
results — and within each of the 6 face groups the naive scanner appends its
quads in the scan order of the interior iteration (the scan-order list
`scan_quads`). -/
theorem scanners_deterministic_and_scan_ordered {T T2 K1 K2 : Type}
    [DecidableEq K1] [DecidableEq K2]
    (voxels : Nat → T) (lin : UVec3 → Nat) (min max : UVec3)
    (faces : Nat → OrientedBlockFace) (output₁ output₂ : UnitQuadBuffer)
    (ctx : VoxelContext T) (min_index max_width max_height : Nat)
    (fs : FaceStrides) (mvoxels : Nat → T2) (visited₁ visited₂ : Nat → Bool)
    (mctx : MergeVoxelContext T2 K1 K2) :
    (output₁ = output₂ →
      visible_block_faces_with_voxel_view voxels lin min max faces output₁ ctx
        = visible_block_faces_with_voxel_view voxels lin min max faces output₂ ctx) ∧
    (∀ f, f < 6 →
      (visible_block_faces_with_voxel_view voxels lin min max faces output₁ ctx).groups f
        = output₁.groups f ++
            scan_quads voxels lin (fun i => lin (faces i).normal_u32) ctx min max f) ∧
    (visited₁ = visited₂ →
      VoxelMerger.find_quad min_index max_width max_height fs mvoxels visited₁ mctx
        = VoxelMerger.find_quad min_index max_width max_height fs mvoxels visited₂ mctx) :=
  ⟨fun h => by rw [h],
   fun f hf => visible_block_faces_groups voxels lin min max faces output₁ ctx f hf,
   fun h => by rw [h]⟩

/-- **C10**: `DefaultVoxelContext` is a pure pass-through — each of its three
methods returns exactly what the voxel's own `Voxel`/`MergeVoxel`
implementation returns — and therefore meshing through it (naive scanner or
`find_quad`) equals meshing driven directly by the voxel's own methods. -/
theorem default_voxel_context_is_passthrough {T K1 K2 : Type}
    [DecidableEq K1] [DecidableEq K2]
    (instV : Voxel T) (instM : MergeVoxel T K1 K2) (v : T)
    (voxels : Nat → T) (lin : UVec3 → Nat) (min max : UVec3)
    (faces : Nat → OrientedBlockFace) (output : UnitQuadBuffer)
    (min_index max_width max_height : Nat) (fs : FaceStrides)
    (visited : Nat → Bool) :
    (DefaultVoxelContext.voxelContext instV).get_visibility v = instV.get_visibility v ∧
    (DefaultVoxelContext.mergeVoxelContext instM).get_visibility v
      = instM.get_visibility v ∧
    (DefaultVoxelContext.mergeVoxelContext instM).merge_value v = instM.merge_value v ∧
    (DefaultVoxelContext.mergeVoxelContext instM).merge_value_facing_neighbour v
      = instM.merge_value_facing_neighbour v ∧
    visible_block_faces_with_voxel_view voxels lin min max faces output
        (DefaultVoxelContext.voxelContext instV)
      = visible_block_faces_with_voxel_view voxels lin min max faces output
          ⟨instV.get_visibility⟩ ∧
    VoxelMerger.find_quad min_index max_width max_height fs voxels visited
        (DefaultVoxelContext.mergeVoxelContext instM)
      = VoxelMerger.find_quad min_index max_width max_height fs voxels visited
          ⟨⟨instM.get_visibility⟩, instM.merge_value,
            instM.merge_value_facing_neighbour⟩ :=
  ⟨rfl, rfl, rfl, rfl, rfl, rfl⟩

/-! ## In-bounds safety of the scanner's unchecked accesses -/

theorem U32_eq : U32 = 4294967296 := by norm_num [U32]

theorem index_lt {a A b B : Nat} (ha : a < A) (hb : b < B) : a + A * b < A * B := by
  calc a + A * b < A + A * b := by omega
    _ = A * (b + 1) := by ring
    _ ≤ A * B := Nat.mul_le_mul_left A hb

theorem assert_in_bounds_iff (len : Nat) (shape : RowMajorShape) (min max : UVec3) :
    assert_in_bounds len shape min max = true ↔
      (shape.size ≤ len ∧ min.x ≤ max.x ∧ min.y ≤ max.y ∧ min.z ≤ max.z ∧
        max.x < shape.x_size ∧ max.y < shape.y_size ∧ max.z < shape.z_size) := by
  unfold assert_in_bounds
  simp [and_assoc]

theorem mem_interior3 {min max p : UVec3} :
    p ∈ interior3 min max ↔
      (min.x < p.x ∧ p.x + 1 ≤ max.x ∧ min.y < p.y ∧ p.y + 1 ≤ max.y ∧
        min.z < p.z ∧ p.z + 1 ≤ max.z) := by
  obtain ⟨px, py, pz⟩ := p
  unfold interior3
  simp only [List.mem_flatMap, List.mem_map, List.mem_range]
  constructor
  · rintro ⟨dz, hdz, dy, hdy, dx, hdx, heq⟩
    injection heq with ex ey ez
    subst ex
    subst ey
    subst ez
    omega
  · rintro ⟨h1, h2, h3, h4, h5, h6⟩
    refine ⟨pz - min.z - 1, by omega, py - min.y - 1, by omega, px - min.x - 1,
      by omega, ?_⟩
    simp only [UVec3.mk.injEq]
    omega

theorem wrap_sub {idx s : Nat} (h1 : s ≤ idx) (h2 : idx < U32) :
    (idx + (U32 - s)) % U32 = idx - s := by
  have h3 : s ≤ U32 := by omega
  have heq : idx + (U32 - s) = (idx - s) + U32 := by omega
  rw [heq, Nat.add_mod_right]
  exact Nat.mod_eq_of_lt (by omega)

theorem neg_stride {s : Nat} (h0 : 1 ≤ s) (h : s ≤ U32) :
    (s * (U32 - 1)) % U32 = U32 - s := by
  have heq : s * (U32 - 1) = (s - 1) * U32 + (U32 - s) := by
    rw [U32_eq] at *
    omega
  rw [heq, Nat.add_comm, Nat.add_mul_mod_self_right]
  exact Nat.mod_eq_of_lt (by omega)

theorem u32_cast_one : u32_cast 1 = 1 := by decide

theorem u32_cast_zero : u32_cast 0 = 0 := by decide

theorem u32_cast_neg_one : u32_cast (-1) = U32 - 1 := by decide

theorem normal_u32_pos_x : OrientedBlockFace.normal_u32 ⟨true, Axis3.X⟩ = ⟨1, 0, 0⟩ := by
  decide

theorem normal_u32_neg_x : OrientedBlockFace.normal_u32 ⟨false, Axis3.X⟩ = ⟨U32 - 1, 0, 0⟩ := by
  decide

theorem normal_u32_pos_y : OrientedBlockFace.normal_u32 ⟨true, Axis3.Y⟩ = ⟨0, 1, 0⟩ := by
  decide

theorem normal_u32_neg_y : OrientedBlockFace.normal_u32 ⟨false, Axis3.Y⟩ = ⟨0, U32 - 1, 0⟩ := by
  decide

theorem normal_u32_pos_z : OrientedBlockFace.normal_u32 ⟨true, Axis3.Z⟩ = ⟨0, 0, 1⟩ := by
  decide

theorem normal_u32_neg_z : OrientedBlockFace.normal_u32 ⟨false, Axis3.Z⟩ = ⟨0, 0, U32 - 1⟩ := by
  decide

/-- **C7**: under the eager bounds assertion (with the shape's cell count
`u32`-representable), every unchecked voxel access of the naive scanner is in
range: for every voxel `p` of the interior iteration and every face of the
table, both the linearized index of `p` and the index of `p` plus the face's
kernel stride (wrapping `u32` addition of the linearized `u32`-cast signed
normal) lie within the voxel slice. -/
theorem scanner_unchecked_accesses_in_bounds (shape : RowMajorShape) (len : Nat)
    (min max : UVec3) (face : OrientedBlockFace) (p : UVec3)
    (h_assert : assert_in_bounds len shape min max = true)
    (h_fit : shape.size ≤ U32)
    (hp : p ∈ interior3 min max) :
    shape.linearize p < len ∧
    (shape.linearize p + shape.linearize face.normal_u32) % U32 < len := by
  obtain ⟨hlen, hxm, hym, hzm, hxs, hys, hzs⟩ :=
    (assert_in_bounds_iff len shape min max).mp h_assert
  obtain ⟨h1, h2, h3, h4, h5, h6⟩ := mem_interior3.mp hp
  obtain ⟨sx, sy, sz⟩ := shape
  obtain ⟨px, py, pz⟩ := p
  simp only [RowMajorShape.size, RowMajorShape.linearize] at hlen h_fit hxs hys hzs
  dsimp only at h1 h2 h3 h4 h5 h6
  simp only [RowMajorShape.linearize]
  have hsx3 : 3 ≤ sx := by omega
  have hsy3 : 3 ≤ sy := by omega
  have hsz3 : 3 ≤ sz := by omega
  have hrp_lt : px + sx * (py + sy * pz) < sx * sy * sz := by
    have hin : py + sy * pz < sy * sz := index_lt (by omega) (by omega)
    have hout : px + sx * (py + sy * pz) < sx * (sy * sz) := index_lt (by omega) hin
    calc px + sx * (py + sy * pz) < sx * (sy * sz) := hout
      _ = sx * sy * sz := by ring
  have hrpU : px + sx * (py + sy * pz) < U32 := by omega
  rw [Nat.mod_eq_of_lt hrpU]
  refine ⟨by omega, ?_⟩
  have h9 : 9 ≤ sy * sz := by
    calc (9 : Nat) = 3 * 3 := by norm_num
      _ ≤ sy * sz := Nat.mul_le_mul hsy3 hsz3
  have hsxU : sx * 9 ≤ sx * sy * sz := by
    calc sx * 9 ≤ sx * (sy * sz) := Nat.mul_le_mul_left sx h9
      _ = sx * sy * sz := by ring
  have hsxyU : sx * sy * 3 ≤ sx * sy * sz := Nat.mul_le_mul_left (sx * sy) hsz3
  have hsxy9 : 9 ≤ sx * sy := by
    calc (9 : Nat) = 3 * 3 := by norm_num
      _ ≤ sx * sy := Nat.mul_le_mul hsx3 hsy3
  obtain ⟨sign, axis⟩ := face
  cases axis with
  | X =>
    cases sign with
    | true =>
      rw [normal_u32_pos_x]
      dsimp only
      have hq : (px + 1) + sx * (py + sy * pz) < sx * sy * sz := by
        have hin : py + sy * pz < sy * sz := index_lt (by omega) (by omega)
        have hout : (px + 1) + sx * (py + sy * pz) < sx * (sy * sz) :=
          index_lt (by omega) hin
        calc (px + 1) + sx * (py + sy * pz) < sx * (sy * sz) := hout
          _ = sx * sy * sz := by ring
      have hstride : (1 + sx * (0 + sy * 0)) % U32 = 1 := by
        rw [U32_eq]; omega
      rw [hstride, Nat.mod_eq_of_lt (by omega)]
      omega
    | false =>
      rw [normal_u32_neg_x]
      dsimp only
      have hstride : ((U32 - 1) + sx * (0 + sy * 0)) % U32 = U32 - 1 := by
        rw [U32_eq]; omega
      rw [hstride, wrap_sub (s := 1) (by omega) hrpU]
      omega
  | Y =>
    cases sign with
    | true =>
      rw [normal_u32_pos_y]
      dsimp only
      have hq : px + sx * ((py + 1) + sy * pz) < sx * sy * sz := by
        have hin : (py + 1) + sy * pz < sy * sz := index_lt (by omega) (by omega)
        have hout : px + sx * ((py + 1) + sy * pz) < sx * (sy * sz) :=
          index_lt (by omega) hin
        calc px + sx * ((py + 1) + sy * pz) < sx * (sy * sz) := hout
          _ = sx * sy * sz := by ring
      have hsum : px + sx * (py + sy * pz) + sx = px + sx * ((py + 1) + sy * pz) := by
        ring
      have hstride : (0 + sx * (1 + sy * 0)) % U32 = sx := by
        have : sx < U32 := by omega
        have he : 0 + sx * (1 + sy * 0) = sx := by ring
        rw [he]
        exact Nat.mod_eq_of_lt this
      rw [hstride, Nat.mod_eq_of_lt (by omega)]
      omega
    | false =>
      rw [normal_u32_neg_y]
      dsimp only
      have hsxrp : sx ≤ px + sx * (py + sy * pz) := by
        have t1 : sx * 1 ≤ sx * (py + sy * pz) := Nat.mul_le_mul_left sx (by omega)
        omega
      have hstride : (0 + sx * ((U32 - 1) + sy * 0)) % U32 = U32 - sx := by
        have he : 0 + sx * ((U32 - 1) + sy * 0) = sx * (U32 - 1) := by ring
        rw [he]
        exact neg_stride (by omega) (by omega)
      rw [hstride, wrap_sub hsxrp hrpU]
      omega
  | Z =>
    cases sign with
    | true =>
      rw [normal_u32_pos_z]
      dsimp only
      have hq : px + sx * (py + sy * (pz + 1)) < sx * sy * sz := by
        have hin : py + sy * (pz + 1) < sy * sz := index_lt (by omega) (by omega)
        have hout : px + sx * (py + sy * (pz + 1)) < sx * (sy * sz) :=
          index_lt (by omega) hin
        calc px + sx * (py + sy * (pz + 1)) < sx * (sy * sz) := hout
          _ = sx * sy * sz := by ring
      have hsum : px + sx * (py + sy * pz) + sx * sy = px + sx * (py + sy * (pz + 1)) := by
        ring
      have hstride : (0 + sx * (0 + sy * 1)) % U32 = sx * sy := by
        have : sx * sy < U32 := by omega
        have he : 0 + sx * (0 + sy * 1) = sx * sy := by ring
        rw [he]
        exact Nat.mod_eq_of_lt this
      rw [hstride, Nat.mod_eq_of_lt (by omega)]
      omega
    | false =>
      rw [normal_u32_neg_z]
      dsimp only
      have hsxyrp : sx * sy ≤ px + sx * (py + sy * pz) := by
        have t1 : sy * 1 ≤ sy * pz := Nat.mul_le_mul_left sy (by omega)
        have t2 : sx * (sy * pz) ≤ sx * (py + sy * pz) := Nat.mul_le_mul_left sx (by omega)
        have t3 : sx * sy ≤ sx * (sy * pz) := by
          calc sx * sy = sx * (sy * 1) := by ring
            _ ≤ sx * (sy * pz) := Nat.mul_le_mul_left sx t1
        omega
      have hstride : (0 + sx * (0 + sy * (U32 - 1))) % U32 = U32 - sx * sy := by
        have he : 0 + sx * (0 + sy * (U32 - 1)) = (sx * sy) * (U32 - 1) := by ring
        rw [he]
        exact neg_stride (by omega) (by omega)
      rw [hstride, wrap_sub hsxyrp hrpU]
      omega

/-! ## Concrete witnesses -/

theorem get_row_width_is_maximal_matching_run_witness :
    ((0 : Nat) < U32) ∧
    (VoxelMerger.get_row_width sampleVoxels sampleVisited 5 0 100 0 1 3 sampleCtx ≤ 3 ∧
      (∀ j, j < VoxelMerger.get_row_width sampleVoxels sampleVisited 5 0 100 0 1 3 sampleCtx →
        row_cell_ok sampleVoxels sampleVisited 5 0 100 0 1 sampleCtx j) ∧
      (VoxelMerger.get_row_width sampleVoxels sampleVisited 5 0 100 0 1 3 sampleCtx < 3 →
        ¬ row_cell_ok sampleVoxels sampleVisited 5 0 100 0 1 sampleCtx
          (VoxelMerger.get_row_width sampleVoxels sampleVisited 5 0 100 0 1 3 sampleCtx)) ∧
      (∀ i j, i < VoxelMerger.get_row_width sampleVoxels sampleVisited 5 0 100 0 1 3 sampleCtx →
          j < VoxelMerger.get_row_width sampleVoxels sampleVisited 5 0 100 0 1 3 sampleCtx →
        sampleCtx.merge_value_facing_neighbour (sampleVoxels ((run_index 0 1 i + 100) % U32))
          = sampleCtx.merge_value_facing_neighbour
              (sampleVoxels ((run_index 0 1 j + 100) % U32)))) :=
  ⟨by decide,
   get_row_width_is_maximal_matching_run sampleVoxels sampleVisited 5 0 100 0 1 3 sampleCtx
     (by decide)⟩

theorem scanner_unchecked_accesses_in_bounds_witness :
    (assert_in_bounds 64 ⟨4, 4, 4⟩ ⟨0, 0, 0⟩ ⟨3, 3, 3⟩ = true ∧
      RowMajorShape.size ⟨4, 4, 4⟩ ≤ U32 ∧
      (⟨1, 1, 1⟩ : UVec3) ∈ interior3 ⟨0, 0, 0⟩ ⟨3, 3, 3⟩) ∧
    (RowMajorShape.linearize ⟨4, 4, 4⟩ ⟨1, 1, 1⟩ < 64 ∧
      (RowMajorShape.linearize ⟨4, 4, 4⟩ ⟨1, 1, 1⟩ +
          RowMajorShape.linearize ⟨4, 4, 4⟩
            (OrientedBlockFace.normal_u32 ⟨false, Axis3.X⟩)) % U32 < 64) :=
  ⟨⟨by decide, by decide, by decide⟩,
   scanner_unchecked_accesses_in_bounds ⟨4, 4, 4⟩ 64 ⟨0, 0, 0⟩ ⟨3, 3, 3⟩
     ⟨false, Axis3.X⟩ ⟨1, 1, 1⟩ (by decide) (by decide) (by decide)⟩

theorem naive_scanner_meshes_by_visibility_predicate_witness :
    ((0 : Nat) < 6) ∧
    (((⟨⟨1, 1, 1⟩⟩ : UnorientedUnitQuad) ∈
        (visible_block_faces_with_voxel_view sampleVoxels3d
          (RowMajorShape.linearize ⟨4, 4, 4⟩) ⟨0, 0, 0⟩ ⟨3, 3, 3⟩ sampleFaces
          ⟨fun _ => []⟩ sampleCtx.toVoxelContext).groups 0) ↔
      ((⟨1, 1, 1⟩ : UVec3) ∈ interior3 ⟨0, 0, 0⟩ ⟨3, 3, 3⟩ ∧
        ¬ sampleCtx.toVoxelContext.get_visibility
            (sampleVoxels3d (RowMajorShape.linearize ⟨4, 4, 4⟩ ⟨1, 1, 1⟩))
          = VoxelVisibility.Empty ∧
        (match sampleCtx.toVoxelContext.get_visibility
            (sampleVoxels3d ((RowMajorShape.linearize ⟨4, 4, 4⟩ ⟨1, 1, 1⟩ +
              RowMajorShape.linearize ⟨4, 4, 4⟩
                (sampleFaces 0).normal_u32) % U32)) with
         | VoxelVisibility.Empty => True
         | VoxelVisibility.Translucent =>
           sampleCtx.toVoxelContext.get_visibility
               (sampleVoxels3d (RowMajorShape.linearize ⟨4, 4, 4⟩ ⟨1, 1, 1⟩))
             = VoxelVisibility.Opaque
         | VoxelVisibility.Opaque => False))) :=
  ⟨by decide,
   naive_scanner_meshes_by_visibility_predicate sampleVoxels3d
     (RowMajorShape.linearize ⟨4, 4, 4⟩) ⟨0, 0, 0⟩ ⟨3, 3, 3⟩ sampleFaces
     sampleCtx.toVoxelContext ⟨1, 1, 1⟩ 0 (by decide)⟩

theorem all_empty_grid_produces_no_quads_witness :
    (∀ (i : Nat), emptyCtx.get_visibility ((fun _ => (0 : Nat)) i) = VoxelVisibility.Empty) ∧
    (visible_block_faces_with_voxel_view (fun _ => (0 : Nat))
        (RowMajorShape.linearize ⟨4, 4, 4⟩) ⟨0, 0, 0⟩ ⟨3, 3, 3⟩ sampleFaces
        ⟨fun _ => []⟩ emptyCtx = ⟨fun _ => []⟩ ∧
      (∀ (len : Nat) (shape : RowMajorShape),
        assert_in_bounds len shape ⟨0, 0, 0⟩ ⟨3, 3, 3⟩ = true →
        visible_block_faces (fun _ => (0 : Nat)) len shape ⟨0, 0, 0⟩ ⟨3, 3, 3⟩
          sampleFaces ⟨fun _ => []⟩ emptyCtx = Except.ok ⟨fun _ => []⟩)) :=
  ⟨fun _ => rfl,
   all_empty_grid_produces_no_quads (fun _ => (0 : Nat))
     (RowMajorShape.linearize ⟨4, 4, 4⟩) ⟨0, 0, 0⟩ ⟨3, 3, 3⟩ sampleFaces
     ⟨fun _ => []⟩ emptyCtx (fun _ => rfl)⟩
